import Mathlib

/-!
Verification of the connection-management core of MaxScale
(`server/core/listener.c`, which carries both the listener and the backend
server code, together with `server/include/dcb.h` and `thread.h`).

The development shallowly embeds the C data structures and operations:
structs become Lean structures, intrusive singly linked lists become `List`s,
the `int` status bitmask becomes a `Finset` of named flags (each C constant is
a distinct bit, so the embedding is exact), pointer identity is modelled by a
numeric `id` field, and the fallible allocator is modelled by an explicit
oracle of allocation outcomes.  Code of the repository that is only declared
here (dcb.c's zombie processing and persistent-pool cleaning, server.h's
macros) is modelled from the specification, as marked in the doc comments.
-/

/- ### Status flags

Modelled from the spec: `server.h` (the status bit constants) is not part of
the sources; the spec's data model lists the server status as a bitmask of
independent flags (Running, Master, Slave, RelayMaster, Joined/Synced, NDB,
Maintenance, AuthError, StaleStatus, MasterStickiness, SlaveOfExternal), so
each flag is one abstract bit and the C operations `|`, `& ~`, `&` on the mask
become union, set difference and intersection of flag sets. -/
inductive SFlag where
  | running
  | master
  | slave
  | joined
  | ndb
  | maint
  | slaveOfExternal
  | staleStatus
  | masterStickiness
  | authError
  | relayMaster
deriving DecidableEq, Repr

/-- A status bitmask: the set of status bits that are on. -/
abbrev Status := Finset SFlag

/- ### Persistent-pool DCB entries

Only the DCB fields read or written by `server_get_persistent` and by the
pool cleaning are modelled (`dcb.h`: `user`, `protoname`,
`dcb_errhandle_called`, `flags & DCBF_HUNG`, `persistentstart`,
`nextpersistent`).  `age` stands for "seconds since `persistentstart`". -/
structure PDCB where
  id : Nat
  user : Option String
  protoname : Option String
  dcb_errhandle_called : Bool
  hung : Bool
  age : Nat
deriving DecidableEq, Repr

/- ### The server structure

The fields of `SERVER` (server.h / server.c) that the verified operations
touch.  `id` models the pointer identity of the C struct. -/
structure ServerParam where
  name : String
  value : String
deriving DecidableEq, Repr

structure Server where
  id : Nat
  name : String
  unique_name : Option String
  protocol : String
  port : Nat
  status : Status
  master_err_is_logged : Bool
  monuser : Option String
  monpw : Option String
  parameters : List ServerParam
  persistent : List PDCB
  persistmaxtime : Nat
  n_persistent : Int
  n_current : Int
deriving DecidableEq

/- ### C1: the zombie reclamation protocol

Modelled from the spec: `dcb.c` (`dcb_process_zombies`, `dcb_final_free`) and
`gwbitmask.c` are not part of the sources; only `dcb.h`'s `DCBMM` comment and
the spec describe the protocol.  Per `dcb.h` (lines 112-134): before placing
the DCB on the zombie list a bitmask is created "with a bit set in it for each
active polling thread. Each thread will call a routine to process the zombie
list at the end of the polling loop. This routine will clear the bit value
that corresponds to the calling thread. Once the bitmask is completely cleared
the DCB can finally be freed and removed from the zombie list."  Per the spec,
the unlink-on-empty step is serialized under the list lock, so one
interleaving step is: atomically clear the calling thread's bit and, if the
mask became empty and the entry is still linked, unlink and free it.  The
bitmask over thread identifiers `0 .. n-1` is the set of still-set bits. -/
structure ZombieState (n : Nat) where
  inList : Bool
  mask : Finset (Fin n)
  freeCount : Nat
deriving DecidableEq

/-- The state of a freshly zombie-marked DCB: linked on the zombie list, its
bitmask holding the snapshot of all `n` active worker threads, never freed. -/
def zombieInit (n : Nat) : ZombieState n :=
  { inList := true, mask := Finset.univ, freeCount := 0 }

/-- One atomic step of worker thread `t` processing the entry during its
end-of-loop zombie pass: clear its own bit; if the mask just became empty and
the entry is still on the list, unlink it and free it (counted). -/
def zombieStep (s : ZombieState n) (t : Fin n) : ZombieState n :=
  if s.inList then
    let m := s.mask.erase t
    if m = ∅ then
      { inList := false, mask := m, freeCount := s.freeCount + 1 }
    else
      { inList := true, mask := m, freeCount := s.freeCount }
  else s

/-- Run an interleaving of per-thread clearing steps from the initial
zombie-marked state. -/
def zombieRun (n : Nat) (ts : List (Fin n)) : ZombieState n :=
  ts.foldl zombieStep (zombieInit n)

/- ### C2: the persistent connection pool -/

/-- The matching test of the scan loop in `server_get_persistent`
(server.c): the entry's cached user and protocol name are both set and equal
to the wanted ones, its error handler has not been called, and it is not
flagged hung (`DCBF_HUNG`). -/
def pdcbMatches (d : PDCB) (user protocol : String) : Bool :=
  d.user = some user && d.protoname = some protocol
    && !d.dcb_errhandle_called && !d.hung

/-- Modelled from the spec: `dcb_persistent_clean_count` lives in `dcb.c`,
which is not part of the sources (only its declaration in `dcb.h` is).  Spec
§4.2 `sweep(server, force)`: "if `force`, unconditionally closes and removes
every pooled entry (used when the server itself is being torn down).
Otherwise, removes and closes only entries whose age exceeds the server's
configured maximum idle time. Returns/updates the remaining count."  The
returned pair is the surviving pool and the remaining count. -/
def dcb_persistent_clean_count (pool : List PDCB) (maxage : Nat)
    (force : Bool) : List PDCB × Nat :=
  let remaining := if force then [] else pool.filter (fun d => d.age ≤ maxage)
  (remaining, remaining.length)

/-- The scan loop of `server_get_persistent`: walk the pool head to tail;
on the first matching entry, unlink it, clear its cached user
(`MXS_FREE(dcb->user); dcb->user = NULL;`) and return it; leave every other
entry in place. -/
def scanPersistent (user protocol : String) :
    List PDCB → Option PDCB × List PDCB
  | [] => (none, [])
  | d :: rest =>
    if pdcbMatches d user protocol then
      (some { d with user := none }, rest)
    else
      let (r, rest') := scanPersistent user protocol rest
      (r, d :: rest')

/-- The function `server_get_persistent` (server.c): when the pool is non-null, first run
the non-forced cleaning pass; when it reports a non-zero count, the pool is
still non-null and the server's status includes Running, scan for the first
matching entry, unlink it, clear its cached user, adjust the persistent and
current connection counters and return it; otherwise return nothing.  The
returned pair is the result DCB (if any) and the updated server. -/
def server_get_persistent (s : Server) (user protocol : String) :
    Option PDCB × Server :=
  if s.persistent ≠ [] then
    let (pool1, cnt) :=
      dcb_persistent_clean_count s.persistent s.persistmaxtime false
    let s1 := { s with persistent := pool1 }
    if cnt ≠ 0 ∧ s1.persistent ≠ [] ∧ SFlag.running ∈ s.status then
      match scanPersistent user protocol s1.persistent with
      | (some d, pool2) =>
        (some d, { s1 with persistent := pool2,
                           n_persistent := s1.n_persistent - 1,
                           n_current := s1.n_current + 1 })
      | (none, _) => (none, s1)
    else (none, s1)
  else (none, s)

/- ### C3 and friends: status operations (server.c) -/

/-- Modelled from the spec: the `SERVER_IS_MASTER` macro lives in `server.h`,
which is not part of the sources; per the spec's status model the Master role
of a server is indicated by the Master status bit. -/
def SERVER_IS_MASTER (s : Server) : Bool :=
  SFlag.master ∈ s.status

/-- The function `server_set_status`: or the given bit(s) into the status, then, if the
server now qualifies as master, clear the "master error already logged"
flag. -/
def server_set_status (s : Server) (bit : Status) : Server :=
  let s' := { s with status := s.status ∪ bit }
  if SERVER_IS_MASTER s' then { s' with master_err_is_logged := false }
  else s'

/-- The function `server_clear_set_status`: clear the "master error already logged" flag
when the bits to set contain Master and the current status does not; then,
if the status restricted to the specified set differs from the bits to set,
clear the specified set and or in the bits to set. -/
def server_clear_set_status (s : Server) (specified_bits bits_to_set : Status) :
    Server :=
  let s1 :=
    if SFlag.master ∈ bits_to_set ∧ SFlag.master ∉ s.status then
      { s with master_err_is_logged := false }
    else s
  if s1.status ∩ specified_bits ≠ bits_to_set then
    { s1 with status := (s1.status \ specified_bits) ∪ bits_to_set }
  else s1

/-- The function `server_clear_status`: clear the given bit(s) from the status. -/
def server_clear_status (s : Server) (bit : Status) : Server :=
  { s with status := s.status \ bit }

/- ### C5: the status renderer (server.c `server_status`) -/

/-- The flag texts of `server_status` in the exact order the code tests and
appends them; each active flag contributes its text followed by ", ". -/
def statusFlagOrder : List (SFlag × String) :=
  [ (SFlag.maint, "Maintenance"),
    (SFlag.master, "Master"),
    (SFlag.relayMaster, "Relay Master"),
    (SFlag.slave, "Slave"),
    (SFlag.joined, "Synced"),
    (SFlag.ndb, "NDB"),
    (SFlag.slaveOfExternal, "Slave of External Server"),
    (SFlag.staleStatus, "Stale Status"),
    (SFlag.masterStickiness, "Master Stickiness"),
    (SFlag.authError, "Auth Error") ]

/-- The function `server_status`: starting from the empty string, `strcat` each active
flag's text followed by ", " in the fixed order above, and finally `strcat`
"Running" when the Running bit is set, else "Down". -/
def server_status (server : Server) : String :=
  (statusFlagOrder.foldl
      (fun acc p => if p.1 ∈ server.status then acc ++ p.2 ++ ", " else acc)
      "")
    ++ (if SFlag.running ∈ server.status then "Running" else "Down")

/- ### C4: `server_update` and `serverAddMonUser` (server.c) -/

/-- The function `serverAddMonUser`: store copies of the monitor user and password. -/
def serverAddMonUser (s : Server) (user passwd : String) : Server :=
  { s with monuser := some user, monpw := some passwd }

/-- Result of `server_update`: the updated server plus whether the
"Update server protocol" and "Update server monitor credentials" notices
were written to the log. -/
structure UpdateResult where
  server : Server
  protocolLogged : Bool
  credentialsLogged : Bool
deriving DecidableEq

/-- The function `server_update` (server.c): when `strcmp(server->protocol, protocol)`
returns zero — i.e. when the stored and incoming protocol are EQUAL — log the
notice, free the stored protocol and replace it with a copy of the incoming
one; then, when both credentials are given and the stored monitor user equals
the incoming one OR the stored monitor password equals the incoming one, log
the notice and re-store the credentials via `serverAddMonUser`. -/
def server_update (s : Server) (protocol : String)
    (user passwd : Option String) : UpdateResult :=
  let (s1, logp) :=
    if s.protocol = protocol then ({ s with protocol := protocol }, true)
    else (s, false)
  match user, passwd with
  | some u, some pw =>
    if s1.monuser = some u ∨ s1.monpw = some pw then
      (⟨serverAddMonUser s1 u pw, logp, true⟩ : UpdateResult)
    else ⟨s1, logp, false⟩
  | _, _ => ⟨s1, logp, false⟩

/- ### C8: server parameters (server.c) -/

/-- The function `serverAddParameter`: copy name and value and prepend the new parameter
to the server's parameter list; when any of the three allocations fails
(`alloc_ok = false`) free the copies and leave the server unchanged. -/
def serverAddParameter (alloc_ok : Bool) (s : Server)
    (name value : String) : Server :=
  if alloc_ok then
    { s with parameters := ⟨name, value⟩ :: s.parameters }
  else s

/-- The function `serverGetParameter`: walk the parameter list from the head and return
the value of the first parameter with the given name, or nothing. -/
def serverGetParameter (s : Server) (name : String) : Option String :=
  (s.parameters.find? (fun p => p.name = name)).map (fun p => p.value)

/- ### C7 and C10: the global server registry (server.c) -/

/-- The process-wide server list `allServers`, with the next fresh pointer
identity.  `servers` is ordered as the intrusive list: most recently
registered first. -/
structure Registry where
  servers : List Server
  nextId : Nat
deriving DecidableEq

/-- The function `server_alloc`: duplicate name and protocol and allocate the struct
(`alloc_ok = false` models any of the three allocations failing, in which
case everything is released and nothing is registered); initialize the
server with status Running and empty pool, parameter list and credentials,
and link it at the head of the global list. -/
def server_alloc (alloc_ok : Bool) (reg : Registry)
    (servname protocol : String) (port : Nat) : Option Server × Registry :=
  if alloc_ok then
    let s : Server :=
      { id := reg.nextId, name := servname, unique_name := none,
        protocol := protocol, port := port, status := {SFlag.running},
        master_err_is_logged := false, monuser := none, monpw := none,
        parameters := [], persistent := [], persistmaxtime := 0,
        n_persistent := 0, n_current := 0 }
    (some s, { servers := s :: reg.servers, nextId := reg.nextId + 1 })
  else (none, reg)

/-- The function `server_set_unique_name`: store a copy of the unique name. -/
def server_set_unique_name (s : Server) (name : String) : Server :=
  { s with unique_name := some name }

/-- The function `server_find_by_unique_name`: walk `allServers` from the head and return
the first server whose unique name is set and equal to the wanted one. -/
def server_find_by_unique_name (reg : Registry) (name : String) :
    Option Server :=
  reg.servers.find? (fun s => s.unique_name = some name)

/-- The function `server_free`: unlink the first list node that is the given server
(pointer comparison, modelled by the `id` field) from `allServers`, then
release its storage and force-drain its pool. -/
def server_free (reg : Registry) (tofreeserver : Server) : Registry :=
  { reg with
    servers := reg.servers.eraseP (fun t => t.id = tofreeserver.id) }

/-- The function `server_update_port`: under the registry lock, when the server is
non-null and the new port is greater than zero, store it; otherwise change
nothing. -/
def server_update_port (s : Server) (port : Nat) : Server :=
  if 0 < port then { s with port := port } else s

/- ### C6: `listener_alloc` (listener.c) and the allocation model

Allocation (`MXS_STRDUP` / `MXS_MALLOC`) is modelled by an explicit state:
an oracle of outcomes consumed one allocation at a time, a counter handing
out fresh cell identities, and the list of currently allocated (live) cells.
`MXS_FREE` removes a cell from the live list (and ignores null). -/
structure AllocState where
  oracle : List Bool
  next : Nat
  live : List Nat
deriving DecidableEq, Repr

/-- Attempt one allocation: consume the next oracle outcome; on success hand
out a fresh live cell, on failure (or an exhausted oracle) return null. -/
def tryAlloc (st : AllocState) : Option Nat × AllocState :=
  match st.oracle with
  | [] => (none, st)
  | b :: rest =>
    if b then
      (some st.next,
       { oracle := rest, next := st.next + 1, live := st.next :: st.live })
    else (none, { st with oracle := rest })

/-- The function `MXS_FREE`: release a cell; freeing null does nothing. -/
def mxs_free (st : AllocState) (c : Option Nat) : AllocState :=
  match c with
  | none => st
  | some i => { st with live := st.live.erase i }

/-- The `SERV_LISTENER` structure (listener.h) with its string fields
represented by the identities of the cells that own their copies. -/
structure ServListener where
  name : Nat
  protocol : Nat
  port : Nat
  address : Option Nat
  authenticator : Option Nat
  options : Option Nat
  ssl : Option Nat
  structCell : Nat
deriving DecidableEq, Repr

/-- The function `listener_alloc` (listener.c): duplicate the address when given (return
null on failure); duplicate the authenticator when given (on failure free the
address and return null); duplicate the options when given (on failure free
the address and the authenticator and return null); then duplicate the
protocol and the name and allocate the structure, and if any of those three
failed, free the protocol copy, the structure and the name copy and return
null; otherwise populate and return the structure. -/
def listener_alloc (st : AllocState) (name protocol : String)
    (address : Option String) (port : Nat)
    (authenticator options : Option String) (ssl : Option Nat) :
    Option ServListener × AllocState :=
  let (addressCell, st) :=
    match address with
    | some _ => tryAlloc st
    | none => (none, st)
  if address.isSome ∧ addressCell = none then (none, st)
  else
    let (authenticatorCell, st) :=
      match authenticator with
      | some _ => tryAlloc st
      | none => (none, st)
    if authenticator.isSome ∧ authenticatorCell = none then
      (none, mxs_free st addressCell)
    else
      let (optionsCell, st) :=
        match options with
        | some _ => tryAlloc st
        | none => (none, st)
      if options.isSome ∧ optionsCell = none then
        (none, mxs_free (mxs_free st addressCell) authenticatorCell)
      else
        let (protocolCell, st) := tryAlloc st
        let (nameCell, st) := tryAlloc st
        let (protoCell, st) := tryAlloc st
        if protocolCell = none ∨ protoCell = none ∨ nameCell = none then
          (none,
           mxs_free (mxs_free (mxs_free st protocolCell) protoCell) nameCell)
        else
          match protocolCell, nameCell, protoCell with
          | some pc, some nc, some sc =>
            (some { name := nc, protocol := pc, port := port,
                    address := addressCell, authenticator := authenticatorCell,
                    options := optionsCell, ssl := ssl, structCell := sc },
             st)
          | _, _, _ => (none, st)

/- ### C9: `listener_init_SSL` (listener.c) -/

/-- The SSL/TLS method ceiling enum (`service.h`'s `ssl_method_type`). -/
inductive SslMethodType where
  | tls10
  | tls11
  | tls12
  | sslMax
  | tlsMax
  | sslTlsMax
deriving DecidableEq, Repr

/-- The OpenSSL method chosen by the `switch` in `listener_init_SSL`. -/
inductive SslMethod where
  | tlsV1
  | tlsV1_1
  | tlsV1_2
  | sslV23
deriving DecidableEq, Repr

/-- The observable configuration of an `SSL_CTX` as `listener_init_SSL`
builds it. -/
structure SslCtx where
  readAheadOff : Bool
  optionAll : Bool
  optionNoSSLv3 : Bool
  tmpRsaCallbackSet : Bool
  certLoaded : Bool
  keyLoaded : Bool
  keyChecked : Bool
  caLoaded : Bool
  verifyPeerSet : Bool
  verifyDepth : Nat
deriving DecidableEq, Repr

/-- The `SSL_LISTENER` structure (gw_ssl.h): TLS configuration plus the
one-shot `ssl_init_done` flag. -/
structure SslListener where
  ssl_method_type : SslMethodType
  method : Option SslMethod
  ctx : Option SslCtx
  ssl_cert : Option String
  ssl_key : Option String
  ssl_ca_cert : Option String
  ssl_cert_verify_depth : Nat
  ssl_init_done : Bool
deriving DecidableEq, Repr

/-- The file-scope ephemeral RSA key pair shared by all TLS listeners
(`rsa_512`, `rsa_1024` in listener.c), each either not yet generated or
generated (holding an opaque key identity). -/
structure SslGlobals where
  rsa_512 : Option Nat
  rsa_1024 : Option Nat
deriving DecidableEq, Repr

/-- The outcomes of the fallible OpenSSL calls made by one run of
`listener_init_SSL`. -/
structure SslOracle where
  ctx_new_ok : Bool
  rsa512_ok : Bool
  rsa1024_ok : Bool
  use_certificate_ok : Bool
  use_private_key_ok : Bool
  check_private_key_ok : Bool
  load_verify_ok : Bool
deriving DecidableEq, Repr

/-- The OpenSSL method chosen by the `switch` of `listener_init_SSL` on the
configured ceiling: a fixed TLS version, or the maximum available
(`SSLv23_method`) for the three MAX settings and any other value. -/
def ssl_select_method (t : SslMethodType) : SslMethod :=
  match t with
  | SslMethodType.tls10 => SslMethod.tlsV1
  | SslMethodType.tls11 => SslMethod.tlsV1_1
  | SslMethodType.tls12 => SslMethod.tlsV1_2
  | SslMethodType.sslMax => SslMethod.sslV23
  | SslMethodType.tlsMax => SslMethod.sslV23
  | SslMethodType.sslTlsMax => SslMethod.sslV23

/-- One lazily generated process-wide ephemeral RSA key slot of
`listener_init_SSL`: reuse the key when already generated, otherwise attempt
to generate it (`ok` is the generation outcome), reporting success. -/
def ssl_lazy_rsa (slot : Option Nat) (bits : Nat) (ok : Bool) :
    Option Nat × Bool :=
  match slot with
  | some k => (some k, true)
  | none => if ok then (some bits, true) else (none, false)

/-- The tail of `listener_init_SSL`: enable peer verification when a
verification depth is configured, set the depth, record the context and set
the one-shot flag, returning success. -/
def ssl_set_verify (g : SslGlobals) (l : SslListener) (ctx : SslCtx) :
    Int × SslGlobals × SslListener :=
  let ctx :=
    if l.ssl_cert_verify_depth ≠ 0 then { ctx with verifyPeerSet := true }
    else ctx
  let ctx := { ctx with verifyDepth := l.ssl_cert_verify_depth }
  (0, g, { l with ctx := some ctx, ssl_init_done := true })

/-- The certificate-loading stage of `listener_init_SSL`: when both a
certificate and a key are configured, load the certificate, load the private
key, check that the pair matches and load the CA file — any failure returns
-1 with the partially configured listener — then finish; without a
configured certificate/key pair, finish directly. -/
def ssl_load_certs_and_finish (g : SslGlobals) (l : SslListener)
    (o : SslOracle) (ctx : SslCtx) : Int × SslGlobals × SslListener :=
  if l.ssl_cert.isSome ∧ l.ssl_key.isSome then
    if !o.use_certificate_ok then (-1, g, l)
    else
      let ctx := { ctx with certLoaded := true }
      let l := { l with ctx := some ctx }
      if !o.use_private_key_ok then (-1, g, l)
      else
        let ctx := { ctx with keyLoaded := true }
        let l := { l with ctx := some ctx }
        if !o.check_private_key_ok then (-1, g, l)
        else
          let ctx := { ctx with keyChecked := true }
          let l := { l with ctx := some ctx }
          if !o.load_verify_ok then (-1, g, l)
          else
            let ctx := { ctx with caLoaded := true }
            ssl_set_verify g l ctx
  else ssl_set_verify g l ctx

/-- The function `listener_init_SSL` (listener.c): when the one-shot flag is not yet set,
choose the method from the configured ceiling, create the context (on failure
return -1), disable read-ahead, set all bug-fix options, disable SSLv3,
lazily generate the process-wide 512-bit and 1024-bit RSA keys (on failure
return -1), install the temporary-RSA callback when both keys exist, load the
certificate material and finish; when the flag is already set, do nothing and
return 0.  The result is the return value paired with the updated globals and
listener. -/
def listener_init_SSL (g : SslGlobals) (l : SslListener) (o : SslOracle) :
    Int × SslGlobals × SslListener :=
  if !l.ssl_init_done then
    let l := { l with method := some (ssl_select_method l.ssl_method_type) }
    if !o.ctx_new_ok then (-1, g, l)
    else
      let ctx : SslCtx :=
        { readAheadOff := true, optionAll := true, optionNoSSLv3 := true,
          tmpRsaCallbackSet := false, certLoaded := false, keyLoaded := false,
          keyChecked := false, caLoaded := false, verifyPeerSet := false,
          verifyDepth := 0 }
      let l := { l with ctx := some ctx }
      let (r512, rsa512ok) := ssl_lazy_rsa g.rsa_512 512 o.rsa512_ok
      let g := { g with rsa_512 := r512 }
      if !rsa512ok then (-1, g, l)
      else
        let (r1024, rsa1024ok) := ssl_lazy_rsa g.rsa_1024 1024 o.rsa1024_ok
        let g := { g with rsa_1024 := r1024 }
        if !rsa1024ok then (-1, g, l)
        else
          let ctx :=
            if g.rsa_512.isSome ∧ g.rsa_1024.isSome then
              { ctx with tmpRsaCallbackSet := true }
            else ctx
          let l := { l with ctx := some ctx }
          ssl_load_certs_and_finish g l o ctx
  else (0, g, l)

/-! ## Theorems -/

/-- A reclaimed (unlinked) entry is never touched again by later passes. -/
lemma zombieRun_of_unlinked (ts : List (Fin n)) (m : Finset (Fin n)) (c : Nat) :
    ts.foldl zombieStep ⟨false, m, c⟩ = ⟨false, m, c⟩ := by
  induction ts with
  | nil => rfl
  | cons t ts ih => simpa [zombieStep] using ih

/-- Running an interleaving from a linked state with a non-empty bitmask:
if every still-set thread takes at least one step the entry ends unlinked and
freed once more, otherwise it stays linked with exactly the bits of the
threads that have not stepped, and is not freed. -/
lemma zombieRun_of_linked (ts : List (Fin n)) :
    ∀ (D : Finset (Fin n)) (c : Nat), D ≠ ∅ →
      ts.foldl zombieStep ⟨true, D, c⟩ =
        if D \ ts.toFinset = ∅ then ⟨false, ∅, c + 1⟩
        else ⟨true, D \ ts.toFinset, c⟩ := by
  induction ts with
  | nil =>
    intro D c hD
    simp [hD]
  | cons t ts ih =>
    intro D c hD
    rw [List.foldl_cons]
    by_cases h : D.erase t = ∅
    · have hstep : zombieStep ⟨true, D, c⟩ t = ⟨false, D.erase t, c + 1⟩ := by
        simp [zombieStep, h]
      have hsub : D \ (t :: ts).toFinset = ∅ := by
        ext x
        simp only [Finset.mem_sdiff, List.toFinset_cons, Finset.mem_insert,
          List.mem_toFinset, Finset.not_mem_empty, iff_false]
        rintro ⟨hxD, hx⟩
        have hxt : x ≠ t := fun hxt => hx (Or.inl hxt)
        have : x ∈ D.erase t := Finset.mem_erase.mpr ⟨hxt, hxD⟩
        simp [h] at this
      rw [hstep, h, zombieRun_of_unlinked, if_pos hsub]
    · have hstep : zombieStep ⟨true, D, c⟩ t = ⟨true, D.erase t, c⟩ := by
        simp [zombieStep, h]
      have hsd : D.erase t \ ts.toFinset = D \ (t :: ts).toFinset := by
        ext x
        simp only [Finset.mem_sdiff, Finset.mem_erase, List.toFinset_cons,
          Finset.mem_insert, List.mem_toFinset]
        tauto
      rw [hstep, ih (D.erase t) c h, hsd]

/-- C1: for a connection object placed on the zombie list with a bitmask
covering all `n` active worker threads, every interleaving of the per-thread
atomic bit-clearing steps in which each thread clears its own bit at least
once frees the object exactly once, and any interleaving in which some thread
has not yet cleared its bit has not freed the object at all. -/
theorem zombie_freed_exactly_once (n : Nat) (ts : List (Fin n)) :
    ((0 < n ∧ ∀ t : Fin n, t ∈ ts) → (zombieRun n ts).freeCount = 1)
    ∧ (∀ t : Fin n, t ∉ ts → (zombieRun n ts).freeCount = 0) := by
  constructor
  · rintro ⟨hn, hcov⟩
    have hne : (Finset.univ : Finset (Fin n)) ≠ ∅ := by
      have : Nonempty (Fin n) := ⟨⟨0, hn⟩⟩
      exact Finset.univ_nonempty.ne_empty
    unfold zombieRun zombieInit
    rw [zombieRun_of_linked ts Finset.univ 0 hne]
    have hcond : (Finset.univ : Finset (Fin n)) \ ts.toFinset = ∅ := by
      ext x
      simp [hcov x]
    rw [if_pos hcond]
  · intro t ht
    have hne : (Finset.univ : Finset (Fin n)) ≠ ∅ :=
      Finset.ne_empty_of_mem (Finset.mem_univ t)
    unfold zombieRun zombieInit
    rw [zombieRun_of_linked ts Finset.univ 0 hne]
    have hcond : (Finset.univ : Finset (Fin n)) \ ts.toFinset ≠ ∅ := by
      refine Finset.ne_empty_of_mem (a := t) ?_
      simp [ht]
    rw [if_neg hcond]

/-- Witness for C1 at two worker threads: the interleaving in which both
threads clear their bit frees the object exactly once; the partial
interleaving in which only thread 0 has cleared its bit has freed nothing. -/
theorem zombie_freed_exactly_once_witness :
    (zombieRun 2 [0, 1]).freeCount = 1 ∧ (zombieRun 2 [0]).freeCount = 0 :=
  ⟨(zombie_freed_exactly_once 2 [0, 1]).1 ⟨by decide, by decide⟩,
   (zombie_freed_exactly_once 2 [0]).2 1 (by decide)⟩

/-- The scan loop returns the first matching entry with its cached user
cleared, and the pool with exactly that entry unlinked. -/
lemma scanPersistent_eq (user protocol : String) (l : List PDCB) :
    scanPersistent user protocol l =
      ((l.find? (fun d => pdcbMatches d user protocol)).map
          (fun d => { d with user := none }),
       l.eraseP (fun d => pdcbMatches d user protocol)) := by
  induction l with
  | nil => rfl
  | cons d rest ih =>
    by_cases h : pdcbMatches d user protocol
    · simp [scanPersistent, h, List.find?_cons_of_pos, List.eraseP_cons_of_pos]
    · simp [scanPersistent, h, ih, List.find?_cons_of_neg,
        List.eraseP_cons_of_neg]

/-- An expired pool entry that matches the wanted identity. -/
def expiredEntry : PDCB :=
  { id := 1, user := some "app", protoname := some "MySQLBackend",
    dcb_errhandle_called := false, hung := false, age := 100 }

/-- A running server whose pool holds only `expiredEntry` and whose maximum
idle time is below that entry's age. -/
def expiredPoolServer : Server :=
  { id := 1, name := "10.0.0.1", unique_name := some "db1",
    protocol := "MySQLBackend", port := 3306, status := {SFlag.running},
    master_err_is_logged := false, monuser := none, monpw := none,
    parameters := [], persistent := [expiredEntry], persistmaxtime := 10,
    n_persistent := 1, n_current := 0 }

/-- C2 counterexample: a Running server with a non-empty pool whose head
entry matches the wanted user and protocol and is neither hung nor errored,
yet `server_get_persistent` returns none — and the pool does not stay
unchanged either: the cleaning pass that runs first removes the (expired)
entry. -/
theorem server_get_persistent_counterexample :
    SFlag.running ∈ expiredPoolServer.status
    ∧ expiredPoolServer.persistent = [expiredEntry]
    ∧ pdcbMatches expiredEntry "app" "MySQLBackend" = true
    ∧ (server_get_persistent expiredPoolServer "app" "MySQLBackend").1 = none
    ∧ (server_get_persistent expiredPoolServer "app"
          "MySQLBackend").2.persistent = [] := by
  decide

/-- C2 amended: provided no pooled entry's age exceeds the server's maximum
idle time (entries over it are removed first by the cleaning pass, which runs
even when the server is not Running), `server_get_persistent` on a Running
server scans the pool head to tail and returns the first entry whose cached
user and protocol both match and which is neither hung nor errored, with its
cached user cleared and exactly that entry unlinked from the pool; when no
entry matches, or the pool is empty, or the server is not Running, it
returns none and leaves the pool unchanged. -/
theorem server_get_persistent_spec (s : Server) (user protocol : String)
    (hfresh : ∀ d ∈ s.persistent, d.age ≤ s.persistmaxtime) :
    (server_get_persistent s user protocol).1
      = (if SFlag.running ∈ s.status then
           (s.persistent.find? (fun d => pdcbMatches d user protocol)).map
             (fun d => { d with user := none })
         else none)
    ∧ (server_get_persistent s user protocol).2.persistent
      = (if SFlag.running ∈ s.status then
           s.persistent.eraseP (fun d => pdcbMatches d user protocol)
         else s.persistent) := by
  have hfilter :
      s.persistent.filter (fun d => d.age ≤ s.persistmaxtime) = s.persistent :=
    List.filter_eq_self.mpr (fun d hd => by simpa using hfresh d hd)
  by_cases hp : s.persistent = []
  · simp [server_get_persistent, hp]
  · by_cases hr : SFlag.running ∈ s.status
    · have hlen : s.persistent.length ≠ 0 := by
        simpa [List.length_eq_zero] using hp
      cases hfind : s.persistent.find? (fun d => pdcbMatches d user protocol)
        with
      | none =>
        have herase :
            s.persistent.eraseP (fun d => pdcbMatches d user protocol)
              = s.persistent := by
          apply List.eraseP_of_forall_not
          intro a ha
          have := List.find?_eq_none.mp hfind a ha
          simpa using this
        simp [server_get_persistent, dcb_persistent_clean_count, hfilter,
          hp, hr, hlen, scanPersistent_eq, hfind, herase]
      | some d =>
        simp [server_get_persistent, dcb_persistent_clean_count, hfilter,
          hp, hr, hlen, scanPersistent_eq, hfind]
    · simp [server_get_persistent, dcb_persistent_clean_count, hfilter,
        hp, hr]

/-- A fresh pool entry matching the wanted identity. -/
def freshEntry : PDCB :=
  { id := 2, user := some "app", protoname := some "MySQLBackend",
    dcb_errhandle_called := false, hung := false, age := 5 }

/-- A running server whose pool holds only `freshEntry`, within the maximum
idle time. -/
def freshPoolServer : Server :=
  { expiredPoolServer with persistent := [freshEntry] }

/-- Witness for the amended C2 at a concrete running server with one fresh
matching entry: the entry is returned with its cached user cleared and the
pool is left empty. -/
theorem server_get_persistent_spec_witness :
    (∀ d ∈ freshPoolServer.persistent, d.age ≤ freshPoolServer.persistmaxtime)
    ∧ ((server_get_persistent freshPoolServer "app" "MySQLBackend").1
        = (if SFlag.running ∈ freshPoolServer.status then
             (freshPoolServer.persistent.find?
                 (fun d => pdcbMatches d "app" "MySQLBackend")).map
               (fun d => { d with user := none })
           else none)
      ∧ (server_get_persistent freshPoolServer "app" "MySQLBackend").2.persistent
        = (if SFlag.running ∈ freshPoolServer.status then
             freshPoolServer.persistent.eraseP
               (fun d => pdcbMatches d "app" "MySQLBackend")
           else freshPoolServer.persistent)) :=
  ⟨by decide, server_get_persistent_spec freshPoolServer "app" "MySQLBackend"
      (by decide)⟩

/-- A running master server whose "master error already logged" flag is
set. -/
def masterServer : Server :=
  { id := 3, name := "10.0.0.3", unique_name := some "m1",
    protocol := "MySQLBackend", port := 3306,
    status := {SFlag.running, SFlag.master}, master_err_is_logged := true,
    monuser := none, monpw := none, parameters := [], persistent := [],
    persistmaxtime := 0, n_persistent := 0, n_current := 0 }

/-- C3 counterexample: setting a bit other than Master (here Slave) on a
server that already holds Master clears the "master error already logged"
flag, although Master is not newly gained — `server_set_status` tests the
master condition only after or-ing the bit in, with no look at the previous
state. -/
theorem server_set_status_counterexample :
    masterServer.master_err_is_logged = true
    ∧ SFlag.master ∉ ({SFlag.slave} : Status)
    ∧ SFlag.master ∈ masterServer.status
    ∧ (server_set_status masterServer
          {SFlag.slave}).master_err_is_logged = false := by
  decide

/-- C3 amended: `server_set_status` clears the "master error already logged"
flag whenever the status resulting from the update qualifies the server as
master — also when Master was already set beforehand and the bit being set is
a different one — and leaves it alone otherwise; `server_clear_set_status`
clears it exactly when Master is among the bits to set and was previously
unset; `server_clear_status` (mere bit-clearing) never clears it. -/
theorem master_err_flag_spec (s : Server) (bit specified bits : Status) :
    ((server_set_status s bit).master_err_is_logged
      = if SFlag.master ∈ s.status ∪ bit then false
        else s.master_err_is_logged)
    ∧ ((server_clear_set_status s specified bits).master_err_is_logged
      = if SFlag.master ∈ bits ∧ SFlag.master ∉ s.status then false
        else s.master_err_is_logged)
    ∧ (server_clear_status s bit).master_err_is_logged
      = s.master_err_is_logged := by
  refine ⟨?_, ?_, rfl⟩
  · by_cases h : SFlag.master ∈ s.status ∪ bit <;>
      simp [server_set_status, SERVER_IS_MASTER, h]
  · by_cases hm : SFlag.master ∈ bits ∧ SFlag.master ∉ s.status
    · simp only [server_clear_set_status, if_pos hm]
      split <;> simp
    · simp only [server_clear_set_status, if_neg hm]
      split <;> simp

/-- A running server with monitor credentials, used as the concrete input of
several witnesses. -/
def sampleServer : Server :=
  { id := 4, name := "10.0.0.2", unique_name := some "db2",
    protocol := "MySQLBackend", port := 3306, status := {SFlag.running},
    master_err_is_logged := true, monuser := some "monitor",
    monpw := some "monpw", parameters := [], persistent := [],
    persistmaxtime := 0, n_persistent := 0, n_current := 0 }

/-- C4 (code bug): `server_update` tests `!strcmp(...)`, which is true when
the strings are EQUAL, so the in-place update (and its log notice) happens
exactly when the incoming protocol equals the stored one — an incoming
protocol that differs leaves the stored value untouched and unlogged, and the
same inversion affects the monitor credentials (updated when the user or the
password already matches). -/
theorem server_update_applies_only_when_equal :
    sampleServer.protocol = "MySQLBackend"
    ∧ (server_update sampleServer "NDBBackend" none none).server.protocol
        = "MySQLBackend"
    ∧ (server_update sampleServer "NDBBackend" none none).protocolLogged
        = false
    ∧ (server_update sampleServer "MySQLBackend" none none).protocolLogged
        = true
    ∧ (server_update sampleServer "NDBBackend" (some "other")
          (some "newpw")).server.monuser = some "monitor"
    ∧ (server_update sampleServer "NDBBackend" (some "monitor")
          (some "newpw")).credentialsLogged = true := by
  decide

/-- The spec-side rendering of a flag list: each flag text followed by a
comma and a space, terminated by the given final word — nothing follows the
terminator. -/
def commaSeparated (flags : List String) (term : String) : String :=
  flags.foldr (fun f acc => f ++ ", " ++ acc) term

/-- Appending a terminator to the renderer's `strcat` fold produces the
comma-separated rendering of the active flags. -/
lemma status_foldl_eq (l : List (SFlag × String)) (st : Status)
    (init term : String) :
    (l.foldl (fun acc p => if p.1 ∈ st then acc ++ p.2 ++ ", " else acc) init)
        ++ term
      = init
        ++ commaSeparated ((l.filter (fun p => p.1 ∈ st)).map Prod.snd)
             term := by
  induction l generalizing init with
  | nil => simp [commaSeparated]
  | cons p l ih =>
    by_cases h : p.1 ∈ st
    · simp only [List.foldl_cons, if_pos h]
      rw [ih]
      simp [List.filter_cons, h, commaSeparated, String.append_assoc]
    · simp only [List.foldl_cons, if_neg h]
      rw [ih]
      simp [List.filter_cons, h]

/-- C5: `server_status` renders exactly the comma-separated list of the
active flag texts in the fixed order of `statusFlagOrder`, terminated by
exactly "Running" when the Running bit is set and "Down" when it is not,
with nothing after the terminator. -/
theorem server_status_spec (server : Server) :
    server_status server
      = commaSeparated
          ((statusFlagOrder.filter (fun p => p.1 ∈ server.status)).map
            Prod.snd)
          (if SFlag.running ∈ server.status then "Running" else "Down")
    ∧ ∃ pre : String,
        server_status server
          = pre ++ (if SFlag.running ∈ server.status then "Running"
                    else "Down") := by
  constructor
  · have := status_foldl_eq statusFlagOrder server.status ""
      (if SFlag.running ∈ server.status then "Running" else "Down")
    simpa [server_status] using this
  · exact ⟨_, rfl⟩

/-- The allocation outcomes under which the address, authenticator, options,
protocol and name copies succeed and the final structure allocation fails. -/
def structFailOracle : List Bool := [true, true, true, true, true, false]

/-- C6 (code bug): when `listener_alloc` is given an address, an
authenticator and an option string, their three copies and the protocol and
name copies succeed, and only the final structure allocation fails, the
failure branch frees only the protocol copy, the structure and the name copy:
the function returns failure with the address, options and authenticator
copies (cells 0, 1 and 2) still allocated — they are leaked, not rolled
back. -/
theorem listener_alloc_leak :
    (listener_alloc ⟨structFailOracle, 0, []⟩ "MyListener" "MySQLClient"
        (some "127.0.0.1") 4006 (some "MySQLAuth") (some "opt") none).1
      = none
    ∧ (listener_alloc ⟨structFailOracle, 0, []⟩ "MyListener" "MySQLClient"
        (some "127.0.0.1") 4006 (some "MySQLAuth") (some "opt") none).2.live
      = [2, 1, 0] := by
  decide

/-- A list in which an element occurs exactly once splits around that
occurrence, which appears in neither part. -/
lemma count_eq_one_split {α : Type} [DecidableEq α] {l : List α} {a : α}
    (h : l.count a = 1) :
    ∃ l1 l2, l = l1 ++ a :: l2 ∧ a ∉ l1 ∧ a ∉ l2 := by
  induction l with
  | nil => simp at h
  | cons b l ih =>
    by_cases hba : b = a
    · subst hba
      have hc : l.count b = 0 := by
        have := List.count_cons_self b l
        omega
      exact ⟨[], l, rfl, by simp, List.count_eq_zero.mp hc⟩
    · have hc : l.count a = 1 := by
        rwa [List.count_cons_of_ne (Ne.symm hba)] at h
      obtain ⟨l1, l2, hdec, h1, h2⟩ := ih hc
      exact ⟨b :: l1, l2, by simp [hdec], by
        simp only [List.mem_cons, not_or]
        exact ⟨fun hab => hba hab.symm, h1⟩, h2⟩

/-- The function `find?` skips a prefix on which the predicate is everywhere false. -/
lemma find?_append_of_false {α : Type} (p : α → Bool) (l1 l2 : List α)
    (h : ∀ b ∈ l1, p b = false) :
    (l1 ++ l2).find? p = l2.find? p := by
  induction l1 with
  | nil => rfl
  | cons b l1 ih =>
    have hb : p b = false := h b (List.mem_cons_self b l1)
    simp only [List.cons_append, List.find?_cons, hb]
    exact ih (fun c hc => h c (List.mem_cons_of_mem b hc))

/-- C7: for a registered server `s` carrying unique name `nm`, while no other
registered server carries that name (and ids identify servers, as allocation
guarantees), `server_find_by_unique_name` returns `s`; after `server_free`
removes `s` from the registry the same lookup returns not-found. -/
theorem server_registry_lookup_spec (reg : Registry) (s : Server)
    (nm : String)
    (hname : s.unique_name = some nm)
    (hcarrier : ∀ t ∈ reg.servers, t.unique_name = some nm → t = s)
    (hid : ∀ t ∈ reg.servers, t.id = s.id → t = s)
    (hcount : reg.servers.count s = 1) :
    server_find_by_unique_name reg nm = some s
    ∧ server_find_by_unique_name (server_free reg s) nm = none := by
  obtain ⟨l1, l2, hdec, h1, h2⟩ := count_eq_one_split hcount
  have hmem1 : ∀ t ∈ l1, t ∈ reg.servers := by
    intro t ht; rw [hdec]; exact List.mem_append_left _ ht
  have hmem2 : ∀ t ∈ l2, t ∈ reg.servers := by
    intro t ht; rw [hdec]
    exact List.mem_append_right _ (List.mem_cons_of_mem s ht)
  have hp1 : ∀ t ∈ l1, (decide (t.unique_name = some nm)) = false := by
    intro t ht
    by_contra hcontra
    have : t.unique_name = some nm := by
      simpa using (Bool.not_eq_false _).mp hcontra
    exact h1 (hcarrier t (hmem1 t ht) this ▸ ht)
  have hq1 : ∀ t ∈ l1, ¬ ((fun u => decide (u.id = s.id)) t = true) := by
    intro t ht hcontra
    have : t.id = s.id := by simpa using hcontra
    exact h1 (hid t (hmem1 t ht) this ▸ ht)
  constructor
  · unfold server_find_by_unique_name
    rw [hdec, find?_append_of_false _ l1 _ hp1]
    simp [List.find?_cons, hname]
  · unfold server_find_by_unique_name server_free
    have herase :
        (reg.servers.eraseP (fun t => t.id = s.id)) = l1 ++ l2 := by
      rw [hdec, List.eraseP_append_right _ hq1,
        List.eraseP_cons_of_pos (by simp)]
    rw [herase]
    apply List.find?_eq_none.mpr
    intro t ht
    rcases List.mem_append.mp ht with htl | htl
    · simpa using hp1 t htl
    · simp only [decide_eq_true_eq]
      intro hu
      exact h2 (hcarrier t (hmem2 t htl) hu ▸ htl)

/-- Two registered servers; `regTwo` holds both, the younger one first. -/
def serverOther : Server :=
  { sampleServer with id := 10, unique_name := some "other" }

def serverDbOne : Server :=
  { sampleServer with id := 11, unique_name := some "db1" }

def regTwo : Registry := { servers := [serverOther, serverDbOne], nextId := 12 }

/-- Witness for C7 at a concrete two-server registry: "db1" is found while
its server is registered and is not found after that server is freed. -/
theorem server_registry_lookup_spec_witness :
    server_find_by_unique_name regTwo "db1" = some serverDbOne
    ∧ server_find_by_unique_name (server_free regTwo serverDbOne) "db1"
        = none :=
  server_registry_lookup_spec regTwo serverDbOne "db1" (by decide) (by decide)
    (by decide) (by decide)

/-- C8: `serverAddParameter` (when its allocations succeed) always prepends
the new name/value pair, `serverGetParameter` then returns the most recently
added value for that name, and every older parameter — same-named ones
included — remains present in the list. -/
theorem serverAddParameter_spec (s : Server) (name value : String) :
    (serverAddParameter true s name value).parameters
      = ⟨name, value⟩ :: s.parameters
    ∧ serverGetParameter (serverAddParameter true s name value) name
      = some value
    ∧ ∀ p ∈ s.parameters,
        p ∈ (serverAddParameter true s name value).parameters := by
  refine ⟨rfl, ?_, ?_⟩
  · simp [serverGetParameter, serverAddParameter, List.find?_cons]
  · intro p hp
    simp only [serverAddParameter, if_pos]
    exact List.mem_cons_of_mem _ hp

/-- Witness for C8 on a server already holding an older "weight" parameter:
the new pair is prepended, lookup returns the new value, and the shadowed
older entry is still in the list. -/
theorem serverAddParameter_spec_witness :
    (serverAddParameter true
        { sampleServer with parameters := [⟨"weight", "2"⟩] } "weight"
        "1").parameters = ⟨"weight", "1"⟩ :: [⟨"weight", "2"⟩]
    ∧ serverGetParameter
        (serverAddParameter true
          { sampleServer with parameters := [⟨"weight", "2"⟩] } "weight" "1")
        "weight" = some "1"
    ∧ ∀ p ∈ ({ sampleServer with
          parameters := [⟨"weight", "2"⟩] } : Server).parameters,
        p ∈ (serverAddParameter true
            { sampleServer with parameters := [⟨"weight", "2"⟩] } "weight"
            "1").parameters :=
  serverAddParameter_spec
    { sampleServer with parameters := [⟨"weight", "2"⟩] } "weight" "1"

/-- The finishing stage always returns success with the one-shot flag set. -/
lemma ssl_set_verify_done (g : SslGlobals) (l : SslListener) (ctx : SslCtx) :
    (ssl_set_verify g l ctx).1 = 0
    ∧ (ssl_set_verify g l ctx).2.2.ssl_init_done = true := by
  simp [ssl_set_verify]

/-- When the certificate-loading stage returns success, the resulting
listener has the one-shot flag set. -/
lemma ssl_load_certs_done (g : SslGlobals) (l : SslListener) (o : SslOracle)
    (ctx : SslCtx) (h : (ssl_load_certs_and_finish g l o ctx).1 = 0) :
    (ssl_load_certs_and_finish g l o ctx).2.2.ssl_init_done = true := by
  unfold ssl_load_certs_and_finish at h ⊢
  by_cases hck : l.ssl_cert.isSome ∧ l.ssl_key.isSome
  · simp only [if_pos hck] at h ⊢
    cases hc : o.use_certificate_ok
    · simp [hc] at h
    · simp only [hc, Bool.not_true, Bool.false_eq_true, if_false] at h ⊢
      cases hc2 : o.use_private_key_ok
      · simp [hc2] at h
      · simp only [hc2, Bool.not_true, Bool.false_eq_true, if_false] at h ⊢
        cases hc3 : o.check_private_key_ok
        · simp [hc3] at h
        · simp only [hc3, Bool.not_true, Bool.false_eq_true, if_false] at h ⊢
          cases hc4 : o.load_verify_ok
          · simp [hc4] at h
          · simp only [hc4, Bool.not_true, Bool.false_eq_true, if_false]
            exact (ssl_set_verify_done _ _ _).2
  · simp only [if_neg hck] at h ⊢
    exact (ssl_set_verify_done _ _ _).2

/-- A successful `listener_init_SSL` call leaves the one-shot flag set. -/
lemma listener_init_SSL_done_of_success (g : SslGlobals) (l : SslListener) (o : SslOracle)
    (h : (listener_init_SSL g l o).1 = 0) :
    (listener_init_SSL g l o).2.2.ssl_init_done = true := by
  unfold listener_init_SSL at h ⊢
  cases hb : l.ssl_init_done
  · simp only [hb, Bool.not_false, if_true] at h ⊢
    cases hc1 : o.ctx_new_ok
    · simp [hc1] at h
    · simp only [hc1, Bool.not_true, Bool.false_eq_true, if_false] at h ⊢
      rcases h512 : ssl_lazy_rsa g.rsa_512 512 o.rsa512_ok with ⟨r512, ok512⟩
      rw [h512] at h
      cases ok512
      · simp at h
      · simp only [Bool.not_true, Bool.false_eq_true, if_false] at h ⊢
        rcases h1024 : ssl_lazy_rsa g.rsa_1024 1024 o.rsa1024_ok
          with ⟨r1024, ok1024⟩
        rw [h1024] at h
        cases ok1024
        · simp at h
        · simp only [Bool.not_true, Bool.false_eq_true, if_false] at h ⊢
          exact ssl_load_certs_done _ _ _ _ h
  · simp [hb] at h ⊢

/-- C9: `listener_init_SSL` is idempotent: whenever a call returns success it
leaves the one-shot `ssl_init_done` flag set, and every further call on the
resulting listener performs no setup at all — whatever the outcomes of the
OpenSSL calls would be — and returns success, leaving the TLS configuration
and the process-wide RSA keys exactly as that call left them. -/
theorem listener_init_SSL_idempotent (g : SslGlobals) (l : SslListener)
    (o : SslOracle) (r : Int) (g2 : SslGlobals) (l2 : SslListener)
    (h : listener_init_SSL g l o = (r, g2, l2)) (hr : r = 0) :
    l2.ssl_init_done = true
    ∧ ∀ o2 : SslOracle, listener_init_SSL g2 l2 o2 = (0, g2, l2) := by
  subst hr
  have h1 : (listener_init_SSL g l o).1 = 0 := by rw [h]
  have h2 := listener_init_SSL_done_of_success g l o h1
  rw [h] at h2
  have h3 : l2.ssl_init_done = true := h2
  exact ⟨h3, fun o2 => by simp [listener_init_SSL, h3]⟩

/-- The TLS listener state after a completed initialization. -/
def doneSslListener : SslListener :=
  { ssl_method_type := SslMethodType.sslTlsMax,
    method := some SslMethod.sslV23,
    ctx := some { readAheadOff := true, optionAll := true,
                  optionNoSSLv3 := true, tmpRsaCallbackSet := true,
                  certLoaded := false, keyLoaded := false,
                  keyChecked := false, caLoaded := false,
                  verifyPeerSet := false, verifyDepth := 0 },
    ssl_cert := none, ssl_key := none, ssl_ca_cert := none,
    ssl_cert_verify_depth := 0, ssl_init_done := true }

/-- The process-wide RSA keys after both have been generated. -/
def doneSslGlobals : SslGlobals := { rsa_512 := some 512, rsa_1024 := some 1024 }

/-- An oracle under which every OpenSSL call fails. -/
def allFailSslOracle : SslOracle :=
  { ctx_new_ok := false, rsa512_ok := false, rsa1024_ok := false,
    use_certificate_ok := false, use_private_key_ok := false,
    check_private_key_ok := false, load_verify_ok := false }

/-- Witness for C9: on an already-initialized listener the call keeps the
flag set and — even under an oracle where every OpenSSL call would fail —
returns success without touching the listener or the global keys. -/
theorem listener_init_SSL_idempotent_witness :
    doneSslListener.ssl_init_done = true
    ∧ listener_init_SSL doneSslGlobals doneSslListener allFailSslOracle
        = (0, doneSslGlobals, doneSslListener) :=
  ⟨(listener_init_SSL_idempotent doneSslGlobals doneSslListener
      allFailSslOracle 0 doneSslGlobals doneSslListener (by decide) rfl).1,
   (listener_init_SSL_idempotent doneSslGlobals doneSslListener
      allFailSslOracle 0 doneSslGlobals doneSslListener (by decide) rfl).2
     allFailSslOracle⟩

/-- C10: `server_update_port` with port 0 is a silent no-op leaving the
server intact, and with a positive port replaces exactly the port field,
leaving every other field unchanged. -/
theorem server_update_port_spec (s : Server) (p : Nat) (hp : 0 < p) :
    server_update_port s 0 = s
    ∧ (server_update_port s p).port = p
    ∧ (server_update_port s p).id = s.id
    ∧ (server_update_port s p).name = s.name
    ∧ (server_update_port s p).unique_name = s.unique_name
    ∧ (server_update_port s p).protocol = s.protocol
    ∧ (server_update_port s p).status = s.status
    ∧ (server_update_port s p).master_err_is_logged = s.master_err_is_logged
    ∧ (server_update_port s p).monuser = s.monuser
    ∧ (server_update_port s p).monpw = s.monpw
    ∧ (server_update_port s p).parameters = s.parameters
    ∧ (server_update_port s p).persistent = s.persistent
    ∧ (server_update_port s p).persistmaxtime = s.persistmaxtime
    ∧ (server_update_port s p).n_persistent = s.n_persistent
    ∧ (server_update_port s p).n_current = s.n_current := by
  simp [server_update_port, hp]

/-- Witness for C10 at a concrete server and port 3307. -/
theorem server_update_port_spec_witness :
    server_update_port sampleServer 0 = sampleServer
    ∧ (server_update_port sampleServer 3307).port = 3307 :=
  ⟨(server_update_port_spec sampleServer 3307 (by decide)).1,
   (server_update_port_spec sampleServer 3307 (by decide)).2.1⟩
